import Mathlib

/-!
Shallow embedding of the lattice state container and transition-rate engine of
the Lattice-Vicsek-with-Magnetic-Control repository, translated from
`src/vlmc/core/particle_lattice.py` (class `ParticleLattice`).  That file is the
current implementation (the package the example script drives); the repository
also carries an older near-duplicate copy `src/particle_lattice/core/particle_lattice.py`,
whose divergences are noted in comments where they matter.

Modelling conventions:
* The boolean tensor `self.griglia` of shape (layers, height, width) is split
  into its three semantic views (`self.particles`, `self.obstacles`,
  `self.sinks`), each embedded as a total function on `Int` indices.  All
  claims are about in-bounds cells, where this agrees with tensor indexing.
* Python `int` coordinates and orientation indices are `Int`; Python `%` on a
  positive modulus agrees with `Int.emod`.
* Orientation layer order is `ORIENTATION_LAYERS = ["up", "left", "down",
  "right"]`, so up = 0, left = 1, down = 2, right = 3.
* A Python method that can `raise` is embedded as `Except Err _`; on every
  state reachable by the guarded mutations, a raise happens before any state
  write, so an error result models the call leaving the caller's lattice
  untouched.  Rates use `ℚ`/`ℝ` for the
  float tensors, exact for the integral values the claims are about.
-/

namespace LVMC

/-- Error kinds of the embedded methods, following the specification's error
taxonomy (section 7).  The Python source raises `ValueError` (and `IndexError`
in `reorient_particle`); each constructor corresponds to one guard condition
under which the source raises. -/
inductive Err where
  | emptyCell
  | occupiedCell
  | invalidPlacement
  | invalidOrientation
  | outOfBounds
  | multiParticle
  deriving DecidableEq, Repr

/-- State of `ParticleLattice`: dimensions plus the particle layers (indexed
orientation, y, x), the obstacles layer and the sinks layer (indexed y, x). -/
structure Lattice where
  width : Nat
  height : Nat
  particles : Int → Int → Int → Bool
  obstacles : Int → Int → Bool
  sinks : Int → Int → Bool

/-- Orientation index of `"up"` in `ORIENTATION_LAYERS = ["up", "left", "down", "right"]`. -/
def up : Int := 0

/-- Orientation index of `"left"`. -/
def left : Int := 1

/-- Orientation index of `"down"`. -/
def down : Int := 2

/-- Orientation index of `"right"`. -/
def right : Int := 3

/-- Embeds `is_empty`: `not self.particles[:, y, x].any()` — true iff none of
the four orientation layers is set at the cell. -/
def is_empty (l : Lattice) (x y : Int) : Bool :=
  !(l.particles 0 y x || l.particles 1 y x || l.particles 2 y x || l.particles 3 y x)

/-- Embeds `is_obstacle`: lookup in the obstacles layer (always attached by
`__init__`, so the `"obstacles" in self.layer_indices` test is always true). -/
def is_obstacle (l : Lattice) (x y : Int) : Bool :=
  l.obstacles y x

/-- Embeds `is_sink`: lookup in the sinks layer (always attached by `__init__`). -/
def is_sink (l : Lattice) (x y : Int) : Bool :=
  l.sinks y x

/-- The tensor write `self.particles[orientation, y, x] = True`. -/
def setParticle (l : Lattice) (orientation y x : Int) : Lattice :=
  { l with particles := fun o yy xx =>
      if o = orientation ∧ yy = y ∧ xx = x then true else l.particles o yy xx }

/-- The tensor write `self.particles[:, y, x] = False`. -/
def clearParticles (l : Lattice) (y x : Int) : Lattice :=
  { l with particles := fun o yy xx =>
      if yy = y ∧ xx = x then false else l.particles o yy xx }

/-- Layer indexing into the 4-layer particles view: indices 0..3 are valid,
negative indices -4..-1 wrap (Python/torch indexing), anything else raises
`IndexError`. -/
def oriIndex (o : Int) : Option Int :=
  if 0 ≤ o ∧ o < 4 then some o
  else if -4 ≤ o ∧ o < 0 then some (o + 4)
  else none

/-- Embeds `add_particle`: succeeds and sets the orientation bit iff the cell
is empty and not an obstacle; otherwise raises.  The source has one combined
guard and one raise site whose message is "cell is occupied or is an
obstacle"; following the specification's taxonomy the non-empty case is the
occupied-cell error and the empty-obstacle case the invalid-placement error. -/
def add_particle (l : Lattice) (x y orientation : Int) : Except Err Lattice :=
  if is_empty l x y && !(is_obstacle l x y) then
    match oriIndex orientation with
    | some i => .ok (setParticle l i y x)
    | none => .error .invalidOrientation
  else if !(is_empty l x y) then .error .occupiedCell
  else .error .invalidPlacement

/-- Embeds `remove_particle`: warns (non-fatally, not modelled) on an empty or
obstacle cell, raises when the cell is outside the lattice bounds, and
otherwise clears all orientation bits at the cell.  The obstacles and sinks
layers are views of other tensor rows and are untouched.  (In the older
`particle_lattice` copy this method clears every layer at the cell, obstacles
and sinks included.) -/
def remove_particle (l : Lattice) (x y : Int) : Except Err Lattice :=
  if x < 0 ∨ (l.width : Int) ≤ x ∨ y < 0 ∨ (l.height : Int) ≤ y then
    .error .outOfBounds
  else
    .ok (clearParticles l y x)

/-- Number of set orientation bits at a cell (the popcount of
`self.particles[:, y, x]`).  Not itself a method of the source; used to state
the exclusion invariant and to model `.item()`. -/
def orientationCount (l : Lattice) (x y : Int) : Nat :=
  (l.particles 0 y x).toNat + (l.particles 1 y x).toNat
    + (l.particles 2 y x).toNat + (l.particles 3 y x).toNat

/-- First set orientation index at a cell (the first element of
`self.particles[:, y, x].nonzero()`); meaningful when the cell is occupied. -/
def firstOrientation (l : Lattice) (x y : Int) : Int :=
  if l.particles 0 y x then 0
  else if l.particles 1 y x then 1
  else if l.particles 2 y x then 2
  else 3

/-- Embeds `get_particle_orientation`: raises on an empty cell; otherwise
`nonzero(...)[0].item()` returns the unique set index, raising if the tensor
holds more than one element (modelled as `multiParticle`; unreachable from
states satisfying the exclusion invariant). -/
def get_particle_orientation (l : Lattice) (x y : Int) : Except Err Int :=
  if is_empty l x y then .error .emptyCell
  else if orientationCount l x y = 1 then .ok (firstOrientation l x y)
  else .error .multiParticle

/-- Embeds `get_target_position`: raises on an orientation index outside
0..3, else applies the periodic step, branching exactly as the source does on
`layer_indices`: up → (x, (y-1) % h), down → (x, (y+1) % h),
left → ((x-1) % w, y), right → ((x+1) % w, y). -/
def get_target_position (l : Lattice) (x y orientation : Int) :
    Except Err (Int × Int) :=
  if orientation < 0 ∨ 4 ≤ orientation then .error .invalidOrientation
  else if orientation = up then .ok (x, (y - 1) % (l.height : Int))
  else if orientation = down then .ok (x, (y + 1) % (l.height : Int))
  else if orientation = left then .ok ((x - 1) % (l.width : Int), y)
  else .ok ((x + 1) % (l.width : Int), y)

/-- Embeds `move_particle`: raises on an empty source; reads the particle's
orientation and target cell; returns `false` (warning, no state change) when
the target is an obstacle or occupied; on a sink target removes the particle
and returns `true`; otherwise removes from the source and adds at the target
with the same orientation and returns `true`. -/
def move_particle (l : Lattice) (x y : Int) : Except Err (Bool × Lattice) :=
  if is_empty l x y then .error .emptyCell
  else
    match get_particle_orientation l x y with
    | .error e => .error e
    | .ok orientation =>
      match get_target_position l x y orientation with
      | .error e => .error e
      | .ok (new_x, new_y) =>
        if is_obstacle l new_x new_y || !(is_empty l new_x new_y) then
          .ok (false, l)
        else if is_sink l new_x new_y then
          match remove_particle l x y with
          | .error e => .error e
          | .ok l' => .ok (true, l')
        else
          match remove_particle l x y with
          | .error e => .error e
          | .ok l' =>
            match add_particle l' new_x new_y orientation with
            | .error e => .error e
            | .ok l'' => .ok (true, l'')

/-- Embeds `reorient_particle`: raises `IndexError` (the specification's
invalid-orientation error) on an out-of-range new orientation, then raises via
`get_particle_orientation` on an empty cell; returns `false` without touching
the state when the new orientation equals the current one; otherwise removes
the particle and re-adds it at the same cell with the new orientation. -/
def reorient_particle (l : Lattice) (x y new_orientation : Int) :
    Except Err (Bool × Lattice) :=
  if new_orientation < 0 ∨ 4 ≤ new_orientation then .error .invalidOrientation
  else
    match get_particle_orientation l x y with
    | .error e => .error e
    | .ok current =>
      if current = new_orientation then .ok (false, l)
      else
        match remove_particle l x y with
        | .error e => .error e
        | .ok l' =>
          match add_particle l' x y new_orientation with
          | .error e => .error e
          | .ok l'' => .ok (true, l'')

/-- Embeds `set_obstacle`: bounds-checked; raises when the cell is non-empty
or a sink (the inner sink-warning branch of the source is dead code behind
that guard); otherwise sets the obstacles bit (double-set only warns). -/
def set_obstacle (l : Lattice) (x y : Int) : Except Err Lattice :=
  if 0 ≤ x ∧ x < (l.width : Int) ∧ 0 ≤ y ∧ y < (l.height : Int) then
    if !(is_empty l x y) || is_sink l x y then .error .invalidPlacement
    else
      .ok { l with obstacles := fun yy xx =>
              if yy = y ∧ xx = x then true else l.obstacles yy xx }
  else .error .outOfBounds

/-- Embeds `set_sink`: bounds-checked; raises when the cell is non-empty or an
obstacle; otherwise sets the sinks bit (double-set only warns). -/
def set_sink (l : Lattice) (x y : Int) : Except Err Lattice :=
  if 0 ≤ x ∧ x < (l.width : Int) ∧ 0 ≤ y ∧ y < (l.height : Int) then
    if !(is_empty l x y) || is_obstacle l x y then .error .invalidPlacement
    else
      .ok { l with sinks := fun yy xx =>
              if yy = y ∧ xx = x then true else l.sinks yy xx }
  else .error .outOfBounds

/-- The `empty_cells` tensor of `compute_tm`:
`~(particles.sum(dim=0) + obstacles).bool()` — true iff no particle and no
obstacle at the cell (indexed y, x like the tensor).  (In the older
`particle_lattice` copy the sum runs over every layer, so sink cells are also
treated as non-empty there.) -/
def empty_cells (l : Lattice) (y x : Int) : Bool :=
  !(l.particles 0 y x || l.particles 1 y x || l.particles 2 y x || l.particles 3 y x
      || l.obstacles y x)

/-- `TM_up` of `compute_tm`: `particles[up] * empty_cells.roll(shifts=+1, dims=0)`;
rolling by +1 places `empty_cells[(y-1) % h, x]` at row `y`. -/
def tm_up (l : Lattice) (y x : Int) : Bool :=
  l.particles up y x && empty_cells l ((y - 1) % (l.height : Int)) x

/-- `TM_down` of `compute_tm`: `particles[down] * empty_cells.roll(shifts=-1, dims=0)`. -/
def tm_down (l : Lattice) (y x : Int) : Bool :=
  l.particles down y x && empty_cells l ((y + 1) % (l.height : Int)) x

/-- `TM_left` of `compute_tm`: `particles[left] * empty_cells.roll(shifts=+1, dims=1)`. -/
def tm_left (l : Lattice) (y x : Int) : Bool :=
  l.particles left y x && empty_cells l y ((x - 1) % (l.width : Int))

/-- `TM_right` of `compute_tm`: `particles[right] * empty_cells.roll(shifts=-1, dims=1)`. -/
def tm_right (l : Lattice) (y x : Int) : Bool :=
  l.particles right y x && empty_cells l y ((x + 1) % (l.width : Int))

/-- The per-orientation migration indicator: the summand of the given
orientation in `TM = TM_up + TM_down + TM_left + TM_right`. -/
def tm_dir (l : Lattice) (o y x : Int) : Bool :=
  if o = up then tm_up l y x
  else if o = down then tm_down l y x
  else if o = left then tm_left l y x
  else tm_right l y x

/-- Embeds `compute_tm`: the combined migration rate tensor
`(TM_up + TM_down + TM_left + TM_right) * v0`, one value per cell. -/
def compute_tm (l : Lattice) (v0 : ℚ) (y x : Int) : ℚ :=
  (((tm_up l y x).toNat + (tm_down l y x).toNat
      + (tm_left l y x).toNat + (tm_right l y x).toNat : ℕ) : ℚ) * v0

/-- The wrap-padded cross-stencil convolution of `compute_log_tr`: the source
pads the orientation layer with one wrapped column on each side and one
wrapped row on each side and convolves with the kernel
`[[0,1,0],[1,0,1],[0,1,0]]` (padding=0), which at an in-bounds cell yields the
periodic 4-neighbor count of that orientation. -/
def neigh (l : Lattice) (o y x : Int) : ℤ :=
  (l.particles o ((y - 1) % (l.height : Int)) x).toNat
    + (l.particles o ((y + 1) % (l.height : Int)) x).toNat
    + (l.particles o y ((x - 1) % (l.width : Int))).toNat
    + (l.particles o y ((x + 1) % (l.width : Int))).toNat

/-- Embeds `compute_log_tr` after the simultaneous pairwise swap: the up and
down entries are contrasted against each other, and likewise left and right. -/
def compute_log_tr (l : Lattice) (o y x : Int) : ℤ :=
  if o = up then neigh l up y x - neigh l down y x
  else if o = down then neigh l down y x - neigh l up y x
  else if o = left then neigh l left y x - neigh l right y x
  else neigh l right y x - neigh l left y x

/-- Embeds `compute_tr`:
`torch.exp(g * log_tr) * occupied_cells * (ones ^ particles)` — the xor with a
ones tensor negates the particles mask, zeroing the entry of the orientation
the particle currently holds.  (In the older `particle_lattice` copy there is
no wrap padding, no zeroing of the current orientation, and the occupied mask
also counts obstacle and sink layers.) -/
noncomputable def compute_tr (l : Lattice) (g : ℝ) (o y x : Int) : ℝ :=
  Real.exp (g * ((compute_log_tr l o y x : ℤ) : ℝ))
    * (if is_empty l x y then 0 else 1)
    * (if l.particles o y x then 0 else 1)

/-- Number of particles of one orientation: `self.particles[i].sum().item()`. -/
def countOrientation (l : Lattice) (o : Int) : Nat :=
  ∑ y ∈ Finset.range l.height, ∑ x ∈ Finset.range l.width,
    (l.particles o (y : Int) (x : Int)).toNat

/-- Total particle count: `self.particles.sum().item()`, summed layer by layer. -/
def num_particles (l : Lattice) : Nat :=
  countOrientation l 0 + countOrientation l 1
    + countOrientation l 2 + countOrientation l 3

/-- Embeds `compute_order_parameter`: the orientation-vector table is
`[[0,1],[0,-1],[-1,0],[1,0]]` indexed by layer, so with the vlmc layer order
the x component of the summed vector is `count right - count down` and the y
component `count up - count left`; the sum is divided by the total count
(returning 0.0 outright when it is zero) and the Euclidean norm is taken. -/
noncomputable def compute_order_parameter (l : Lattice) : ℝ :=
  if num_particles l = 0 then 0
  else
    Real.sqrt
      ((((countOrientation l right : ℝ) - (countOrientation l down : ℝ))
            / (num_particles l : ℝ)) ^ 2
        + (((countOrientation l up : ℝ) - (countOrientation l left : ℝ))
            / (num_particles l : ℝ)) ^ 2)

/-- One mutation request, as issued by the external driver. -/
inductive Mutation where
  | add (x y orientation : Int)
  | remove (x y : Int)
  | move (x y : Int)
  | reorient (x y orientation : Int)
  | setObstacle (x y : Int)
  | setSink (x y : Int)

/-- Applies one mutation primitive, keeping the previous state when the call
raises (on reachable states every raise happens before any state write, so a
failed call leaves the Python lattice unchanged).  A sequence of valid
(successful) mutations is a `List Mutation` folded through this function. -/
def applyMut (l : Lattice) (m : Mutation) : Lattice :=
  match m with
  | .add x y o =>
    match add_particle l x y o with
    | .ok l' => l'
    | .error _ => l
  | .remove x y =>
    match remove_particle l x y with
    | .ok l' => l'
    | .error _ => l
  | .move x y =>
    match move_particle l x y with
    | .ok (_, l') => l'
    | .error _ => l
  | .reorient x y o =>
    match reorient_particle l x y o with
    | .ok (_, l') => l'
    | .error _ => l
  | .setObstacle x y =>
    match set_obstacle l x y with
    | .ok l' => l'
    | .error _ => l
  | .setSink x y =>
    match set_sink l x y with
    | .ok l' => l'
    | .error _ => l

/-- A freshly constructed lattice: `torch.zeros` particle layers plus the given
obstacle and sink masks.  The random placement that `__init__` performs at a
nonzero density is a sequence of guarded `add_particle` calls, so it is covered
by the mutation sequences of the exclusion-invariant theorem. -/
def emptyLattice (width height : Nat) (obstacles sinks : Int → Int → Bool) : Lattice :=
  { width := width, height := height, particles := fun _ _ _ => false,
    obstacles := obstacles, sinks := sinks }

/-- The exclusion invariant: at most one orientation bit per cell. -/
def excl (l : Lattice) : Prop :=
  ∀ x y : Int, orientationCount l x y ≤ 1

/-- Opposite orientation under the motion semantics of `get_target_position`:
up ↔ down, left ↔ right.  Used to state the contrast appearing in the
reorientation rates. -/
def oppositeOf (o : Int) : Int :=
  if o = up then down else if o = down then up else if o = left then right
  else left

/-- Concrete 3×3 lattice with a single right-oriented particle at (1, 1) (the
scenario of section 8 of the specification). -/
def latA : Lattice :=
  { width := 3, height := 3,
    particles := fun o y x => decide (o = 3 ∧ y = 1 ∧ x = 1),
    obstacles := fun _ _ => false,
    sinks := fun _ _ => false }

/-- Concrete 1×2 lattice with an up-oriented particle at (0, 0) and a sink at
(0, 1); moving up wraps around onto the sink. -/
def latB : Lattice :=
  { width := 1, height := 2,
    particles := fun o y x => decide (o = 0 ∧ y = 0 ∧ x = 0),
    obstacles := fun _ _ => false,
    sinks := fun y x => decide (y = 1 ∧ x = 0) }

/-- Concrete 2×1 lattice with an obstacle at (0, 0) and an up-oriented
particle at (1, 0). -/
def latC : Lattice :=
  { width := 2, height := 1,
    particles := fun o y x => decide (o = 0 ∧ y = 0 ∧ x = 1),
    obstacles := fun y x => decide (y = 0 ∧ x = 0),
    sinks := fun _ _ => false }

/-- Concrete 2×1 lattice holding one up particle at (0, 0) and one down
particle at (1, 0): both opposite-orientation count pairs are equal
(1 = 1 for up/down and 0 = 0 for left/right). -/
def isoLattice : Lattice :=
  { width := 2, height := 1,
    particles := fun o y x => decide (y = 0 ∧ ((o = 0 ∧ x = 0) ∨ (o = 2 ∧ x = 1))),
    obstacles := fun _ _ => false,
    sinks := fun _ _ => false }

/-! ## Helper lemmas -/

theorem is_empty_false_of_bit (l : Lattice) (x y o : Int) (ho0 : 0 ≤ o)
    (ho4 : o < 4) (hbit : l.particles o y x = true) :
    is_empty l x y = false := by
  interval_cases o <;> simp [is_empty, hbit]

theorem is_empty_bits (l : Lattice) (x y : Int) (h : is_empty l x y = true) :
    l.particles 0 y x = false ∧ l.particles 1 y x = false
      ∧ l.particles 2 y x = false ∧ l.particles 3 y x = false := by
  simp [is_empty] at h
  tauto

theorem get_particle_orientation_eq (l : Lattice) (x y o : Int) (ho0 : 0 ≤ o)
    (ho4 : o < 4) (hbit : l.particles o y x = true)
    (hcount : orientationCount l x y = 1) :
    get_particle_orientation l x y = .ok o := by
  have hne : is_empty l x y = false := is_empty_false_of_bit l x y o ho0 ho4 hbit
  have hfirst : firstOrientation l x y = o := by
    unfold orientationCount at hcount
    interval_cases o <;>
      cases h0 : l.particles 0 y x <;> cases h1 : l.particles 1 y x <;>
        cases h2 : l.particles 2 y x <;> cases h3 : l.particles 3 y x <;>
        simp_all [firstOrientation]
  simp [get_particle_orientation, hne, hcount, hfirst]

theorem oriIndex_of_range (o : Int) (ho0 : 0 ≤ o) (ho4 : o < 4) :
    oriIndex o = some o := by
  unfold oriIndex
  rw [if_pos ⟨ho0, ho4⟩]

theorem add_particle_ok_iff (l : Lattice) (x y o : Int) (ho0 : 0 ≤ o)
    (ho4 : o < 4) (hempty : is_empty l x y = true)
    (hobs : is_obstacle l x y = false) :
    add_particle l x y o = .ok (setParticle l o y x) := by
  unfold add_particle
  rw [oriIndex_of_range o ho0 ho4]
  simp [hempty, hobs]

theorem remove_particle_ok_iff (l : Lattice) (x y : Int)
    (hx0 : 0 ≤ x) (hxw : x < (l.width : Int))
    (hy0 : 0 ≤ y) (hyh : y < (l.height : Int)) :
    remove_particle l x y = .ok (clearParticles l y x) := by
  unfold remove_particle
  rw [if_neg (by omega)]

theorem is_empty_clearParticles (l : Lattice) (y x tx ty : Int) :
    is_empty (clearParticles l y x) tx ty
      = (decide (ty = y ∧ tx = x) || is_empty l tx ty) := by
  by_cases hty : ty = y
  · by_cases htx : tx = x
    · simp [is_empty, clearParticles, hty, htx]
    · simp [is_empty, clearParticles, hty, htx]
  · simp [is_empty, clearParticles, hty]

theorem is_obstacle_clearParticles (l : Lattice) (y x tx ty : Int) :
    is_obstacle (clearParticles l y x) tx ty = is_obstacle l tx ty := rfl

theorem move_particle_blocked (l : Lattice) (x y o tx ty : Int)
    (ho0 : 0 ≤ o) (ho4 : o < 4) (hbit : l.particles o y x = true)
    (hcount : orientationCount l x y = 1)
    (ht : get_target_position l x y o = .ok (tx, ty))
    (hblock : is_obstacle l tx ty = true ∨ is_empty l tx ty = false) :
    move_particle l x y = .ok (false, l) := by
  have hne := is_empty_false_of_bit l x y o ho0 ho4 hbit
  have hgo := get_particle_orientation_eq l x y o ho0 ho4 hbit hcount
  have hcond : (is_obstacle l tx ty || !(is_empty l tx ty)) = true := by
    rcases hblock with h | h <;> simp [h]
  simp only [move_particle, hne, Bool.false_eq_true, if_false, hgo, ht, hcond,
    if_true]

theorem move_particle_sink (l : Lattice) (x y o tx ty : Int)
    (hx0 : 0 ≤ x) (hxw : x < (l.width : Int))
    (hy0 : 0 ≤ y) (hyh : y < (l.height : Int))
    (ho0 : 0 ≤ o) (ho4 : o < 4) (hbit : l.particles o y x = true)
    (hcount : orientationCount l x y = 1)
    (ht : get_target_position l x y o = .ok (tx, ty))
    (hobs : is_obstacle l tx ty = false) (hemp : is_empty l tx ty = true)
    (hsink : is_sink l tx ty = true) :
    move_particle l x y = .ok (true, clearParticles l y x) := by
  have hne := is_empty_false_of_bit l x y o ho0 ho4 hbit
  have hgo := get_particle_orientation_eq l x y o ho0 ho4 hbit hcount
  have hrm := remove_particle_ok_iff l x y hx0 hxw hy0 hyh
  simp only [move_particle, hne, Bool.false_eq_true, if_false, hgo, ht, hobs,
    hemp, hsink, hrm, Bool.not_true, Bool.or_false, if_true, if_false]

theorem move_particle_step (l : Lattice) (x y o tx ty : Int)
    (hx0 : 0 ≤ x) (hxw : x < (l.width : Int))
    (hy0 : 0 ≤ y) (hyh : y < (l.height : Int))
    (ho0 : 0 ≤ o) (ho4 : o < 4) (hbit : l.particles o y x = true)
    (hcount : orientationCount l x y = 1)
    (ht : get_target_position l x y o = .ok (tx, ty))
    (hobs : is_obstacle l tx ty = false) (hemp : is_empty l tx ty = true)
    (hsink : is_sink l tx ty = false) :
    move_particle l x y
      = .ok (true, setParticle (clearParticles l y x) o ty tx) := by
  have hne := is_empty_false_of_bit l x y o ho0 ho4 hbit
  have hgo := get_particle_orientation_eq l x y o ho0 ho4 hbit hcount
  have hrm := remove_particle_ok_iff l x y hx0 hxw hy0 hyh
  have hemp' : is_empty (clearParticles l y x) tx ty = true := by
    rw [is_empty_clearParticles]
    by_cases h : ty = y ∧ tx = x <;> simp [h, hemp]
  have hadd := add_particle_ok_iff (clearParticles l y x) tx ty o ho0 ho4 hemp'
    (by rw [is_obstacle_clearParticles]; exact hobs)
  simp only [move_particle, hne, Bool.false_eq_true, if_false, hgo, ht, hobs,
    hemp, hsink, hrm, hadd, Bool.not_true, Bool.or_false, if_true, if_false]

theorem reorient_particle_noop (l : Lattice) (x y c : Int)
    (hc0 : 0 ≤ c) (hc4 : c < 4) (hbit : l.particles c y x = true)
    (hcount : orientationCount l x y = 1) :
    reorient_particle l x y c = .ok (false, l) := by
  have hgo := get_particle_orientation_eq l x y c hc0 hc4 hbit hcount
  simp only [reorient_particle, hgo]
  rw [if_neg (by omega)]
  simp

theorem reorient_particle_swap (l : Lattice) (x y c o : Int)
    (hx0 : 0 ≤ x) (hxw : x < (l.width : Int))
    (hy0 : 0 ≤ y) (hyh : y < (l.height : Int))
    (hc0 : 0 ≤ c) (hc4 : c < 4) (ho0 : 0 ≤ o) (ho4 : o < 4) (hco : c ≠ o)
    (hbit : l.particles c y x = true) (hcount : orientationCount l x y = 1)
    (hobs : is_obstacle l x y = false) :
    reorient_particle l x y o
      = .ok (true, setParticle (clearParticles l y x) o y x) := by
  have hgo := get_particle_orientation_eq l x y c hc0 hc4 hbit hcount
  have hrm := remove_particle_ok_iff l x y hx0 hxw hy0 hyh
  have hemp' : is_empty (clearParticles l y x) x y = true := by
    rw [is_empty_clearParticles]
    simp
  have hadd := add_particle_ok_iff (clearParticles l y x) x y o ho0 ho4 hemp'
    (by rw [is_obstacle_clearParticles]; exact hobs)
  simp only [reorient_particle, hgo, hrm, hadd]
  rw [if_neg (by omega), if_neg hco]

theorem sum_toNat_update (w h : Nat) (f g : Int → Int → Bool) (y x : Int)
    (hy0 : 0 ≤ y) (hyh : y < (h : Int)) (hx0 : 0 ≤ x) (hxw : x < (w : Int))
    (hagree : ∀ yy xx : Int, ¬(yy = y ∧ xx = x) → g yy xx = f yy xx) :
    (∑ yy ∈ Finset.range h, ∑ xx ∈ Finset.range w, (g (yy : Int) (xx : Int)).toNat)
        + (f y x).toNat
      = (∑ yy ∈ Finset.range h, ∑ xx ∈ Finset.range w, (f (yy : Int) (xx : Int)).toNat)
        + (g y x).toNat := by
  have hyn : y.toNat ∈ Finset.range h := by
    simp only [Finset.mem_range]; omega
  have hxn : x.toNat ∈ Finset.range w := by
    simp only [Finset.mem_range]; omega
  have hycast : ((y.toNat : ℕ) : Int) = y := Int.toNat_of_nonneg hy0
  have hxcast : ((x.toNat : ℕ) : Int) = x := Int.toNat_of_nonneg hx0
  have hgsplit := (Finset.add_sum_erase (Finset.range h)
    (fun yy => ∑ xx ∈ Finset.range w, (g (yy : Int) (xx : Int)).toNat) hyn).symm
  have hfsplit := (Finset.add_sum_erase (Finset.range h)
    (fun yy => ∑ xx ∈ Finset.range w, (f (yy : Int) (xx : Int)).toNat) hyn).symm
  rw [hycast] at hgsplit hfsplit
  have herase : (∑ yy ∈ (Finset.range h).erase y.toNat,
        ∑ xx ∈ Finset.range w, (g (yy : Int) (xx : Int)).toNat)
      = ∑ yy ∈ (Finset.range h).erase y.toNat,
        ∑ xx ∈ Finset.range w, (f (yy : Int) (xx : Int)).toNat := by
    refine Finset.sum_congr rfl fun yy hyy => Finset.sum_congr rfl fun xx _ => ?_
    have hne : (yy : Int) ≠ y := by
      have := (Finset.mem_erase.mp hyy).1
      omega
    rw [hagree _ _ (by tauto)]
  have hgrow := (Finset.add_sum_erase (Finset.range w)
    (fun xx => (g y (xx : Int)).toNat) hxn).symm
  have hfrow := (Finset.add_sum_erase (Finset.range w)
    (fun xx => (f y (xx : Int)).toNat) hxn).symm
  rw [hxcast] at hgrow hfrow
  have herasex : (∑ xx ∈ (Finset.range w).erase x.toNat, (g y (xx : Int)).toNat)
      = ∑ xx ∈ (Finset.range w).erase x.toNat, (f y (xx : Int)).toNat := by
    refine Finset.sum_congr rfl fun xx hxx => ?_
    have hne : (xx : Int) ≠ x := by
      have := (Finset.mem_erase.mp hxx).1
      omega
    rw [hagree _ _ (by tauto)]
  omega

theorem countOrientation_setParticle_self (l : Lattice) (i y x : Int)
    (hy0 : 0 ≤ y) (hyh : y < (l.height : Int))
    (hx0 : 0 ≤ x) (hxw : x < (l.width : Int))
    (hbit : l.particles i y x = false) :
    countOrientation (setParticle l i y x) i = countOrientation l i + 1 := by
  have hagree : ∀ yy xx : Int, ¬(yy = y ∧ xx = x) →
      (setParticle l i y x).particles i yy xx = l.particles i yy xx := by
    intro yy xx hne
    simp only [setParticle]
    rw [if_neg (by tauto)]
  have hpoint : (setParticle l i y x).particles i y x = true := by
    simp [setParticle]
  have h := sum_toNat_update l.width l.height
    (fun yy xx => l.particles i yy xx)
    (fun yy xx => (setParticle l i y x).particles i yy xx)
    y x hy0 hyh hx0 hxw hagree
  simp only at h
  rw [hpoint, hbit] at h
  have hnew : countOrientation (setParticle l i y x) i
      = ∑ yy ∈ Finset.range l.height, ∑ xx ∈ Finset.range l.width,
          ((setParticle l i y x).particles i (yy : Int) (xx : Int)).toNat := rfl
  have hold : countOrientation l i
      = ∑ yy ∈ Finset.range l.height, ∑ xx ∈ Finset.range l.width,
          (l.particles i (yy : Int) (xx : Int)).toNat := rfl
  rw [hnew, hold]
  simp only [Bool.toNat_false, Bool.toNat_true] at h
  omega

theorem countOrientation_setParticle_other (l : Lattice) (i y x o : Int)
    (ho : o ≠ i) :
    countOrientation (setParticle l i y x) o = countOrientation l o := by
  unfold countOrientation
  refine Finset.sum_congr rfl fun yy _ => Finset.sum_congr rfl fun xx _ => ?_
  simp only [setParticle]
  rw [if_neg (by tauto)]

theorem countOrientation_clearParticles (l : Lattice) (y x o : Int)
    (hy0 : 0 ≤ y) (hyh : y < (l.height : Int))
    (hx0 : 0 ≤ x) (hxw : x < (l.width : Int)) :
    countOrientation (clearParticles l y x) o + (l.particles o y x).toNat
      = countOrientation l o := by
  have hagree : ∀ yy xx : Int, ¬(yy = y ∧ xx = x) →
      (clearParticles l y x).particles o yy xx = l.particles o yy xx := by
    intro yy xx hne
    simp only [clearParticles]
    rw [if_neg (by tauto)]
  have hpoint : (clearParticles l y x).particles o y x = false := by
    simp [clearParticles]
  have h := sum_toNat_update l.width l.height
    (fun yy xx => l.particles o yy xx)
    (fun yy xx => (clearParticles l y x).particles o yy xx)
    y x hy0 hyh hx0 hxw hagree
  simp only at h
  rw [hpoint] at h
  have hnew : countOrientation (clearParticles l y x) o
      = ∑ yy ∈ Finset.range l.height, ∑ xx ∈ Finset.range l.width,
          ((clearParticles l y x).particles o (yy : Int) (xx : Int)).toNat := rfl
  have hold : countOrientation l o
      = ∑ yy ∈ Finset.range l.height, ∑ xx ∈ Finset.range l.width,
          (l.particles o (yy : Int) (xx : Int)).toNat := rfl
  rw [hnew, hold]
  simp only [Bool.toNat_false, Bool.toNat_true] at h
  omega

theorem num_particles_setParticle (l : Lattice) (i y x : Int)
    (hi0 : 0 ≤ i) (hi4 : i < 4)
    (hy0 : 0 ≤ y) (hyh : y < (l.height : Int))
    (hx0 : 0 ≤ x) (hxw : x < (l.width : Int))
    (hbit : l.particles i y x = false) :
    num_particles (setParticle l i y x) = num_particles l + 1 := by
  unfold num_particles
  interval_cases i
  · rw [countOrientation_setParticle_self l 0 y x hy0 hyh hx0 hxw hbit,
      countOrientation_setParticle_other l 0 y x 1 (by omega),
      countOrientation_setParticle_other l 0 y x 2 (by omega),
      countOrientation_setParticle_other l 0 y x 3 (by omega)]
    omega
  · rw [countOrientation_setParticle_self l 1 y x hy0 hyh hx0 hxw hbit,
      countOrientation_setParticle_other l 1 y x 0 (by omega),
      countOrientation_setParticle_other l 1 y x 2 (by omega),
      countOrientation_setParticle_other l 1 y x 3 (by omega)]
    omega
  · rw [countOrientation_setParticle_self l 2 y x hy0 hyh hx0 hxw hbit,
      countOrientation_setParticle_other l 2 y x 0 (by omega),
      countOrientation_setParticle_other l 2 y x 1 (by omega),
      countOrientation_setParticle_other l 2 y x 3 (by omega)]
    omega
  · rw [countOrientation_setParticle_self l 3 y x hy0 hyh hx0 hxw hbit,
      countOrientation_setParticle_other l 3 y x 0 (by omega),
      countOrientation_setParticle_other l 3 y x 1 (by omega),
      countOrientation_setParticle_other l 3 y x 2 (by omega)]
    omega

theorem num_particles_clearParticles (l : Lattice) (y x : Int)
    (hy0 : 0 ≤ y) (hyh : y < (l.height : Int))
    (hx0 : 0 ≤ x) (hxw : x < (l.width : Int)) :
    num_particles (clearParticles l y x) + orientationCount l x y
      = num_particles l := by
  have h0 := countOrientation_clearParticles l y x 0 hy0 hyh hx0 hxw
  have h1 := countOrientation_clearParticles l y x 1 hy0 hyh hx0 hxw
  have h2 := countOrientation_clearParticles l y x 2 hy0 hyh hx0 hxw
  have h3 := countOrientation_clearParticles l y x 3 hy0 hyh hx0 hxw
  unfold num_particles
  unfold orientationCount
  omega

theorem excl_particles_congr (l l' : Lattice)
    (h : ∀ o yy xx : Int, l'.particles o yy xx = l.particles o yy xx)
    (hl : excl l) : excl l' := by
  intro a b
  simp only [orientationCount, h]
  exact hl a b

theorem excl_setParticle (l : Lattice) (i y x : Int)
    (hi0 : 0 ≤ i) (hi4 : i < 4) (hempty : is_empty l x y = true)
    (hl : excl l) : excl (setParticle l i y x) := by
  intro a b
  by_cases hc : b = y ∧ a = x
  · obtain ⟨hb, ha⟩ := hc
    subst hb
    subst ha
    obtain ⟨e0, e1, e2, e3⟩ := is_empty_bits l a b hempty
    interval_cases i <;>
      simp [orientationCount, setParticle, e0, e1, e2, e3]
  · have hcells : ∀ o, (setParticle l i y x).particles o b a
        = l.particles o b a := by
      intro o
      simp only [setParticle]
      rw [if_neg (by tauto)]
    simp only [orientationCount, hcells]
    exact hl a b

theorem excl_clearParticles (l : Lattice) (y x : Int) (hl : excl l) :
    excl (clearParticles l y x) := by
  intro a b
  by_cases hc : b = y ∧ a = x
  · obtain ⟨hb, ha⟩ := hc
    subst hb
    subst ha
    simp [orientationCount, clearParticles]
  · have hcells : ∀ o, (clearParticles l y x).particles o b a
        = l.particles o b a := by
      intro o
      simp only [clearParticles]
      rw [if_neg (by tauto)]
    simp only [orientationCount, hcells]
    exact hl a b

theorem add_particle_ok_inv (l l' : Lattice) (x y o : Int)
    (h : add_particle l x y o = .ok l') :
    is_empty l x y = true ∧ is_obstacle l x y = false
      ∧ ∃ i, 0 ≤ i ∧ i < 4 ∧ l' = setParticle l i y x := by
  unfold add_particle at h
  split at h
  case isTrue hguard =>
    rw [Bool.and_eq_true, Bool.not_eq_true'] at hguard
    cases heq : oriIndex o with
    | none => rw [heq] at h; exact absurd h (by simp)
    | some i =>
      rw [heq] at h
      have hi : 0 ≤ i ∧ i < 4 := by
        unfold oriIndex at heq
        split at heq
        · injection heq with hio
          omega
        · split at heq
          · injection heq with hio
            omega
          · exact absurd heq (by simp)
      injection h with hl'
      exact ⟨hguard.1, hguard.2, i, hi.1, hi.2, hl'.symm⟩
  case isFalse =>
    split at h <;> exact absurd h (by simp)

theorem remove_particle_ok_inv (l l' : Lattice) (x y : Int)
    (h : remove_particle l x y = .ok l') :
    l' = clearParticles l y x
      ∧ 0 ≤ x ∧ x < (l.width : Int) ∧ 0 ≤ y ∧ y < (l.height : Int) := by
  unfold remove_particle at h
  split at h
  case isTrue => exact absurd h (by simp)
  case isFalse hb =>
    injection h with hl'
    exact ⟨hl'.symm, by omega, by omega, by omega, by omega⟩

theorem excl_add_ok (l l' : Lattice) (x y o : Int)
    (h : add_particle l x y o = .ok l') (hl : excl l) : excl l' := by
  obtain ⟨hemp, -, i, hi0, hi4, hset⟩ := add_particle_ok_inv l l' x y o h
  rw [hset]
  exact excl_setParticle l i y x hi0 hi4 hemp hl

theorem excl_remove_ok (l l' : Lattice) (x y : Int)
    (h : remove_particle l x y = .ok l') (hl : excl l) : excl l' := by
  obtain ⟨hclear, -⟩ := remove_particle_ok_inv l l' x y h
  rw [hclear]
  exact excl_clearParticles l y x hl

theorem excl_move_ok (l l' : Lattice) (x y : Int) (b : Bool)
    (h : move_particle l x y = .ok (b, l')) (hl : excl l) : excl l' := by
  unfold move_particle at h
  repeat' split at h
  all_goals try exact Except.noConfusion h
  all_goals
    injection h with hp
    injection hp with hb hl'
    subst hl'
  all_goals
    first
      | assumption
      | exact excl_remove_ok l _ x y (by assumption) hl
      | exact excl_add_ok _ _ _ _ _ (by assumption)
          (excl_remove_ok l _ x y (by assumption) hl)

theorem excl_reorient_ok (l l' : Lattice) (x y o : Int) (b : Bool)
    (h : reorient_particle l x y o = .ok (b, l')) (hl : excl l) : excl l' := by
  unfold reorient_particle at h
  repeat' split at h
  all_goals try exact Except.noConfusion h
  all_goals
    injection h with hp
    injection hp with hb hl'
    subst hl'
  all_goals
    first
      | assumption
      | exact excl_add_ok _ _ _ _ _ (by assumption)
          (excl_remove_ok l _ x y (by assumption) hl)

theorem excl_set_obstacle_ok (l l' : Lattice) (x y : Int)
    (h : set_obstacle l x y = .ok l') (hl : excl l) : excl l' := by
  unfold set_obstacle at h
  split at h
  · split at h
    · exact absurd h (by simp)
    · injection h with hl'
      subst hl'
      exact excl_particles_congr l _ (fun o yy xx => rfl) hl
  · exact absurd h (by simp)

theorem excl_set_sink_ok (l l' : Lattice) (x y : Int)
    (h : set_sink l x y = .ok l') (hl : excl l) : excl l' := by
  unfold set_sink at h
  split at h
  · split at h
    · exact absurd h (by simp)
    · injection h with hl'
      subst hl'
      exact excl_particles_congr l _ (fun o yy xx => rfl) hl
  · exact absurd h (by simp)

theorem excl_applyMut (l : Lattice) (m : Mutation) (hl : excl l) :
    excl (applyMut l m) := by
  cases m with
  | add x y o =>
    simp only [applyMut]
    cases h : add_particle l x y o with
    | ok l' => exact excl_add_ok l l' x y o h hl
    | error e => exact hl
  | remove x y =>
    simp only [applyMut]
    cases h : remove_particle l x y with
    | ok l' => exact excl_remove_ok l l' x y h hl
    | error e => exact hl
  | move x y =>
    simp only [applyMut]
    cases h : move_particle l x y with
    | ok p =>
      obtain ⟨b, l'⟩ := p
      exact excl_move_ok l l' x y b h hl
    | error e => exact hl
  | reorient x y o =>
    simp only [applyMut]
    cases h : reorient_particle l x y o with
    | ok p =>
      obtain ⟨b, l'⟩ := p
      exact excl_reorient_ok l l' x y o b h hl
    | error e => exact hl
  | setObstacle x y =>
    simp only [applyMut]
    cases h : set_obstacle l x y with
    | ok l' => exact excl_set_obstacle_ok l l' x y h hl
    | error e => exact hl
  | setSink x y =>
    simp only [applyMut]
    cases h : set_sink l x y with
    | ok l' => exact excl_set_sink_ok l l' x y h hl
    | error e => exact hl

theorem get_target_position_up (l : Lattice) (x y : Int) :
    get_target_position l x y up = .ok (x, (y - 1) % (l.height : Int)) := by
  unfold get_target_position
  rw [if_neg (by decide), if_pos rfl]

theorem get_target_position_down (l : Lattice) (x y : Int) :
    get_target_position l x y down = .ok (x, (y + 1) % (l.height : Int)) := by
  unfold get_target_position
  rw [if_neg (by decide), if_neg (by decide), if_pos rfl]

theorem get_target_position_left (l : Lattice) (x y : Int) :
    get_target_position l x y left = .ok ((x - 1) % (l.width : Int), y) := by
  unfold get_target_position
  rw [if_neg (by decide), if_neg (by decide), if_neg (by decide), if_pos rfl]

theorem get_target_position_right (l : Lattice) (x y : Int) :
    get_target_position l x y right = .ok ((x + 1) % (l.width : Int), y) := by
  unfold get_target_position
  rw [if_neg (by decide), if_neg (by decide), if_neg (by decide),
    if_neg (by decide)]

theorem get_target_position_in_bounds (l : Lattice) (x y o tx ty : Int)
    (hw : 0 < l.width) (hh : 0 < l.height)
    (hx0 : 0 ≤ x) (hxw : x < (l.width : Int))
    (hy0 : 0 ≤ y) (hyh : y < (l.height : Int))
    (ho0 : 0 ≤ o) (ho4 : o < 4)
    (ht : get_target_position l x y o = .ok (tx, ty)) :
    0 ≤ tx ∧ tx < (l.width : Int) ∧ 0 ≤ ty ∧ ty < (l.height : Int) := by
  have hwp : (0 : Int) < (l.width : Int) := by omega
  have hhp : (0 : Int) < (l.height : Int) := by omega
  interval_cases o
  · rw [show (0 : Int) = up from rfl, get_target_position_up] at ht
    injection ht with hp
    injection hp with h1 h2
    rw [← h1, ← h2]
    exact ⟨hx0, hxw, Int.emod_nonneg _ (by omega), Int.emod_lt_of_pos _ hhp⟩
  · rw [show (1 : Int) = left from rfl, get_target_position_left] at ht
    injection ht with hp
    injection hp with h1 h2
    rw [← h1, ← h2]
    exact ⟨Int.emod_nonneg _ (by omega), Int.emod_lt_of_pos _ hwp, hy0, hyh⟩
  · rw [show (2 : Int) = down from rfl, get_target_position_down] at ht
    injection ht with hp
    injection hp with h1 h2
    rw [← h1, ← h2]
    exact ⟨hx0, hxw, Int.emod_nonneg _ (by omega), Int.emod_lt_of_pos _ hhp⟩
  · rw [show (3 : Int) = right from rfl, get_target_position_right] at ht
    injection ht with hp
    injection hp with h1 h2
    rw [← h1, ← h2]
    exact ⟨Int.emod_nonneg _ (by omega), Int.emod_lt_of_pos _ hwp, hy0, hyh⟩

theorem neg_one_emod (w : Nat) (hw : 1 < w) :
    ((0 : Int) - 1) % (w : Int) = (w : Int) - 1 := by
  have h1 : ((-1 : Int) + (w : Int) * 1) % (w : Int) = (-1 : Int) % (w : Int) :=
    Int.add_mul_emod_self_left (-1 : Int) (w : Int) 1
  have h2 : ((w : Int) - 1) % (w : Int) = (w : Int) - 1 :=
    Int.emod_eq_of_lt (by omega) (by omega)
  have h3 : (-1 : Int) + (w : Int) * 1 = (w : Int) - 1 := by ring
  rw [h3, h2] at h1
  have h4 : ((0 : Int) - 1) = (-1 : Int) := by ring
  rw [h4, ← h1]

theorem succ_last_emod (w : Nat) :
    (((w : Int) - 1) + 1) % (w : Int) = 0 := by
  have h3 : ((w : Int) - 1) + 1 = (w : Int) := by ring
  rw [h3, Int.emod_self]

/-- Claim C7: `get_target_position` is a pure function applying one periodic step:
up maps (x, y) to (x, (y-1) mod height), down to (x, (y+1) mod height), left
to ((x-1) mod width, y), right to ((x+1) mod width, y); it fails with the
invalid-orientation error for every orientation outside the 4 defined values;
it maps in-range cells to in-range cells; and it satisfies the exact
wraparound identities targetPosition(0,0,left) = (width-1, 0) and
targetPosition(width-1,0,right) = (0, 0) whenever width > 1. -/
theorem get_target_position_spec (l : Lattice) (x y o : Int)
    (hw : 0 < l.width) (hh : 0 < l.height) :
    (o < 0 ∨ 4 ≤ o → get_target_position l x y o = .error .invalidOrientation)
    ∧ get_target_position l x y up = .ok (x, (y - 1) % (l.height : Int))
    ∧ get_target_position l x y down = .ok (x, (y + 1) % (l.height : Int))
    ∧ get_target_position l x y left = .ok ((x - 1) % (l.width : Int), y)
    ∧ get_target_position l x y right = .ok ((x + 1) % (l.width : Int), y)
    ∧ (0 ≤ o → o < 4 → 0 ≤ x → x < (l.width : Int) → 0 ≤ y →
        y < (l.height : Int) →
        ∃ tx ty : Int, get_target_position l x y o = .ok (tx, ty)
          ∧ 0 ≤ tx ∧ tx < (l.width : Int) ∧ 0 ≤ ty ∧ ty < (l.height : Int))
    ∧ (1 < l.width →
        get_target_position l 0 0 left = .ok ((l.width : Int) - 1, 0)
          ∧ get_target_position l ((l.width : Int) - 1) 0 right = .ok (0, 0)) := by
  refine ⟨?_, get_target_position_up l x y, get_target_position_down l x y,
    get_target_position_left l x y, get_target_position_right l x y, ?_, ?_⟩
  · intro ho
    unfold get_target_position
    rw [if_pos ho]
  · intro ho0 ho4 hx0 hxw hy0 hyh
    have hwp : (0 : Int) < (l.width : Int) := by omega
    have hhp : (0 : Int) < (l.height : Int) := by omega
    interval_cases o
    · exact ⟨x, (y - 1) % (l.height : Int), get_target_position_up l x y,
        hx0, hxw, Int.emod_nonneg _ (by omega), Int.emod_lt_of_pos _ hhp⟩
    · exact ⟨(x - 1) % (l.width : Int), y, get_target_position_left l x y,
        Int.emod_nonneg _ (by omega), Int.emod_lt_of_pos _ hwp, hy0, hyh⟩
    · exact ⟨x, (y + 1) % (l.height : Int), get_target_position_down l x y,
        hx0, hxw, Int.emod_nonneg _ (by omega), Int.emod_lt_of_pos _ hhp⟩
    · exact ⟨(x + 1) % (l.width : Int), y, get_target_position_right l x y,
        Int.emod_nonneg _ (by omega), Int.emod_lt_of_pos _ hwp, hy0, hyh⟩
  · intro hw1
    constructor
    · rw [get_target_position_left, neg_one_emod l.width hw1]
    · rw [get_target_position_right, succ_last_emod l.width]

/-- Witness for C7 on the concrete 3×3 lattice: orientation 5 is rejected and
both x-edge wraparound identities hold with width 3. -/
theorem get_target_position_spec_witness :
    get_target_position latA 1 1 5 = .error .invalidOrientation
      ∧ get_target_position latA 0 0 left = .ok (2, 0)
      ∧ get_target_position latA 2 0 right = .ok (0, 0) := by
  have h5 := get_target_position_spec latA 1 1 5 (by decide) (by decide)
  have h0 := get_target_position_spec latA 0 0 0 (by decide) (by decide)
  refine ⟨h5.1 (by omega), ?_, ?_⟩
  · have := (h0.2.2.2.2.2.2 (by decide)).1
    simpa [latA] using this
  · have := (h0.2.2.2.2.2.2 (by decide)).2
    simpa [latA] using this

/-- Claim C5: for an in-bounds cell, `add_particle` fails with the occupied-cell
error when the cell is non-empty and with the invalid-placement error when the
(empty) cell is an obstacle — an error produces no new state, so the cell
stays empty and the lattice unchanged — and on success its only effect is to
set the one occupancy bit `occupancy[orientation][y][x]`. -/
theorem add_particle_spec (l : Lattice) (x y o : Int)
    (hx0 : 0 ≤ x) (hxw : x < (l.width : Int))
    (hy0 : 0 ≤ y) (hyh : y < (l.height : Int)) :
    (is_empty l x y = false → add_particle l x y o = .error .occupiedCell)
    ∧ (is_empty l x y = true → is_obstacle l x y = true →
        add_particle l x y o = .error .invalidPlacement)
    ∧ (is_empty l x y = true → is_obstacle l x y = false → 0 ≤ o → o < 4 →
        add_particle l x y o = .ok (setParticle l o y x)
          ∧ (setParticle l o y x).particles o y x = true
          ∧ (∀ o' y' x' : Int, ¬(o' = o ∧ y' = y ∧ x' = x) →
              (setParticle l o y x).particles o' y' x' = l.particles o' y' x')
          ∧ (setParticle l o y x).obstacles = l.obstacles
          ∧ (setParticle l o y x).sinks = l.sinks) := by
  refine ⟨?_, ?_, ?_⟩
  · intro hne
    simp [add_particle, hne]
  · intro hemp hobs
    simp [add_particle, hemp, hobs]
  · intro hemp hobs ho0 ho4
    refine ⟨add_particle_ok_iff l x y o ho0 ho4 hemp hobs,
      by simp [setParticle], ?_, rfl, rfl⟩
    intro o' y' x' hne
    simp only [setParticle]
    rw [if_neg hne]

/-- Witness for C5: on the 2×1 lattice with obstacle at (0,0) and a particle
at (1,0), adding at the obstacle raises the invalid-placement error and adding
at the occupied cell the occupied-cell error; on the 3×3 lattice adding at the
empty corner succeeds with exactly the one bit set. -/
theorem add_particle_spec_witness :
    add_particle latC 0 0 0 = .error .invalidPlacement
      ∧ is_empty latC 0 0 = true
      ∧ add_particle latC 1 0 2 = .error .occupiedCell
      ∧ add_particle latA 0 0 up = .ok (setParticle latA up 0 0) := by
  have hc := add_particle_spec latC 0 0 0 (by decide) (by decide) (by decide)
    (by decide)
  have hc2 := add_particle_spec latC 1 0 2 (by decide) (by decide) (by decide)
    (by decide)
  have ha := add_particle_spec latA 0 0 up (by decide) (by decide) (by decide)
    (by decide)
  exact ⟨hc.2.1 (by decide) (by decide), by decide, hc2.1 (by decide),
    (ha.2.2 (by decide) (by decide) (by decide) (by decide)).1⟩

/-- Claim C10: for an in-bounds cell, `remove_particle` succeeds and clears exactly
the four orientation bits at that cell: every other cell's occupancy, the
obstacles layer and the sinks layer are unchanged. -/
theorem remove_particle_spec (l : Lattice) (x y : Int)
    (hx0 : 0 ≤ x) (hxw : x < (l.width : Int))
    (hy0 : 0 ≤ y) (hyh : y < (l.height : Int)) :
    remove_particle l x y = .ok (clearParticles l y x)
    ∧ (∀ o : Int, (clearParticles l y x).particles o y x = false)
    ∧ (∀ o y' x' : Int, ¬(y' = y ∧ x' = x) →
        (clearParticles l y x).particles o y' x' = l.particles o y' x')
    ∧ (clearParticles l y x).obstacles = l.obstacles
    ∧ (clearParticles l y x).sinks = l.sinks := by
  refine ⟨remove_particle_ok_iff l x y hx0 hxw hy0 hyh, ?_, ?_, rfl, rfl⟩
  · intro o
    simp [clearParticles]
  · intro o y' x' hne
    simp only [clearParticles]
    rw [if_neg hne]

/-- Witness for C10: removing the particle at (1,1) of the 3×3 lattice clears
its bit; a neighboring cell and the terrain layers are untouched. -/
theorem remove_particle_spec_witness :
    remove_particle latA 1 1 = .ok (clearParticles latA 1 1)
      ∧ (clearParticles latA 1 1).particles 3 1 1 = false
      ∧ (clearParticles latA 1 1).particles 3 0 0 = latA.particles 3 0 0
      ∧ (clearParticles latA 1 1).obstacles = latA.obstacles := by
  have h := remove_particle_spec latA 1 1 (by decide) (by decide) (by decide)
    (by decide)
  exact ⟨h.1, h.2.1 3, h.2.2.1 3 0 0 (by decide), h.2.2.2.1⟩

/-- Claim C8: for an in-bounds cell, `reorient_particle` fails with the
invalid-orientation error when the requested orientation is outside 0..3,
fails with the empty-cell error when the cell holds no particle, returns
`false` with the lattice unchanged when the requested orientation equals the
particle's current one, and otherwise clears the current bit, sets the new
orientation at the same cell and returns `true` (the obstacle-free hypothesis
restricts to reachable states, where a particle never sits on an obstacle). -/
theorem reorient_particle_spec (l : Lattice) (x y c o : Int)
    (hx0 : 0 ≤ x) (hxw : x < (l.width : Int))
    (hy0 : 0 ≤ y) (hyh : y < (l.height : Int)) :
    (o < 0 ∨ 4 ≤ o → reorient_particle l x y o = .error .invalidOrientation)
    ∧ (0 ≤ o → o < 4 → is_empty l x y = true →
        reorient_particle l x y o = .error .emptyCell)
    ∧ (0 ≤ c → c < 4 → l.particles c y x = true →
        orientationCount l x y = 1 →
        reorient_particle l x y c = .ok (false, l))
    ∧ (0 ≤ c → c < 4 → 0 ≤ o → o < 4 → c ≠ o → l.particles c y x = true →
        orientationCount l x y = 1 → is_obstacle l x y = false →
        reorient_particle l x y o
            = .ok (true, setParticle (clearParticles l y x) o y x)
          ∧ (setParticle (clearParticles l y x) o y x).particles o y x = true
          ∧ (setParticle (clearParticles l y x) o y x).particles c y x = false
          ∧ (∀ o' y' x' : Int, ¬(y' = y ∧ x' = x) →
              (setParticle (clearParticles l y x) o y x).particles o' y' x'
                = l.particles o' y' x')
          ∧ (setParticle (clearParticles l y x) o y x).obstacles = l.obstacles
          ∧ (setParticle (clearParticles l y x) o y x).sinks = l.sinks) := by
  refine ⟨?_, ?_, ?_, ?_⟩
  · intro ho
    unfold reorient_particle
    rw [if_pos ho]
  · intro ho0 ho4 hemp
    have hge : get_particle_orientation l x y = .error .emptyCell := by
      simp [get_particle_orientation, hemp]
    unfold reorient_particle
    rw [if_neg (by omega), hge]
  · intro hc0 hc4 hbit hcount
    exact reorient_particle_noop l x y c hc0 hc4 hbit hcount
  · intro hc0 hc4 ho0 ho4 hco hbit hcount hobs
    refine ⟨reorient_particle_swap l x y c o hx0 hxw hy0 hyh hc0 hc4 ho0 ho4
      hco hbit hcount hobs, by simp [setParticle], ?_, ?_, rfl, rfl⟩
    · simp only [setParticle, clearParticles]
      rw [if_neg (by tauto)]
      simp
    · intro o' y' x' hne
      simp only [setParticle, clearParticles]
      rw [if_neg (by tauto), if_neg hne]

/-- Witness for C8 on the 3×3 lattice with a right particle at (1,1):
orientation 7 is rejected, the empty corner raises the empty-cell error,
reorienting to the current orientation is a `false` no-op, and reorienting to
up succeeds. -/
theorem reorient_particle_spec_witness :
    reorient_particle latA 1 1 7 = .error .invalidOrientation
      ∧ reorient_particle latA 0 0 1 = .error .emptyCell
      ∧ reorient_particle latA 1 1 3 = .ok (false, latA)
      ∧ reorient_particle latA 1 1 0
          = .ok (true, setParticle (clearParticles latA 1 1) 0 1 1) := by
  have h7 := reorient_particle_spec latA 1 1 3 7 (by decide) (by decide)
    (by decide) (by decide)
  have h0 := reorient_particle_spec latA 0 0 3 1 (by decide) (by decide)
    (by decide) (by decide)
  have h3 := reorient_particle_spec latA 1 1 3 3 (by decide) (by decide)
    (by decide) (by decide)
  have hs := reorient_particle_spec latA 1 1 3 0 (by decide) (by decide)
    (by decide) (by decide)
  exact ⟨h7.1 (by omega), h0.2.1 (by decide) (by decide) (by decide),
    h3.2.2.1 (by decide) (by decide) (by decide) (by decide),
    (hs.2.2.2 (by decide) (by decide) (by decide) (by decide) (by decide)
      (by decide) (by decide) (by decide)).1⟩

/-- Claim C1: for an in-bounds occupied cell (with its unique orientation bit),
`move_particle` raises the empty-cell error on an empty source; returns
`false` leaving the lattice unchanged when the target cell (one periodic step
along the orientation) is an obstacle or occupied; on a sink target removes
the particle, placing it nowhere, and returns `true`; and otherwise removes
it from the source, adds it at the target with the same orientation and
returns `true`. -/
theorem move_particle_spec (l : Lattice) (x y : Int)
    (hx0 : 0 ≤ x) (hxw : x < (l.width : Int))
    (hy0 : 0 ≤ y) (hyh : y < (l.height : Int)) :
    (is_empty l x y = true → move_particle l x y = .error .emptyCell)
    ∧ (∀ o tx ty : Int, 0 ≤ o → o < 4 → l.particles o y x = true →
        orientationCount l x y = 1 →
        get_target_position l x y o = .ok (tx, ty) →
        ((is_obstacle l tx ty = true ∨ is_empty l tx ty = false →
            move_particle l x y = .ok (false, l))
          ∧ (is_obstacle l tx ty = false → is_empty l tx ty = true →
              is_sink l tx ty = true →
              move_particle l x y = .ok (true, clearParticles l y x)
                ∧ (∀ o' y' x' : Int,
                    (clearParticles l y x).particles o' y' x' = true →
                    l.particles o' y' x' = true))
          ∧ (is_obstacle l tx ty = false → is_empty l tx ty = true →
              is_sink l tx ty = false →
              move_particle l x y
                  = .ok (true, setParticle (clearParticles l y x) o ty tx)
                ∧ (setParticle (clearParticles l y x) o ty tx).particles o ty tx
                    = true
                ∧ (∀ o' : Int, (setParticle (clearParticles l y x) o ty tx).particles o' y x
                    = false)))) := by
  refine ⟨?_, ?_⟩
  · intro hemp
    unfold move_particle
    rw [if_pos hemp]
  · intro o tx ty ho0 ho4 hbit hcount ht
    refine ⟨?_, ?_, ?_⟩
    · intro hblock
      exact move_particle_blocked l x y o tx ty ho0 ho4 hbit hcount ht hblock
    · intro hobs hemp hsink
      refine ⟨move_particle_sink l x y o tx ty hx0 hxw hy0 hyh ho0 ho4 hbit
        hcount ht hobs hemp hsink, ?_⟩
      intro o' y' x' hp
      by_cases hc : y' = y ∧ x' = x
      · exfalso
        simp only [clearParticles] at hp
        rw [if_pos hc] at hp
        exact Bool.false_ne_true hp
      · simp only [clearParticles] at hp
        rw [if_neg hc] at hp
        exact hp
    · intro hobs hemp hsink
      have hne := is_empty_false_of_bit l x y o ho0 ho4 hbit
      have hts : ¬(y = ty ∧ x = tx) := by
        intro hc
        rw [← hc.1, ← hc.2] at hemp
        rw [hemp] at hne
        exact absurd hne (by simp)
      refine ⟨move_particle_step l x y o tx ty hx0 hxw hy0 hyh ho0 ho4 hbit
        hcount ht hobs hemp hsink, by simp [setParticle], ?_⟩
      intro o'
      simp only [setParticle, clearParticles]
      rw [if_neg (by tauto)]
      simp

/-- Witness for C1: on the concrete lattices, moving from the empty corner
raises the empty-cell error; the 2×1 obstacle lattice's particle wraps onto
itself and is blocked; the 1×2 sink lattice's particle is absorbed; and the
3×3 lattice's right particle steps from (1,1) to (2,1). -/
theorem move_particle_spec_witness :
    move_particle latA 0 0 = .error .emptyCell
      ∧ move_particle latC 1 0 = .ok (false, latC)
      ∧ move_particle latB 0 0 = .ok (true, clearParticles latB 0 0)
      ∧ move_particle latA 1 1
          = .ok (true, setParticle (clearParticles latA 1 1) 3 1 2) := by
  have hA := move_particle_spec latA 1 1 (by decide) (by decide) (by decide)
    (by decide)
  have hA0 := move_particle_spec latA 0 0 (by decide) (by decide) (by decide)
    (by decide)
  have hB := move_particle_spec latB 0 0 (by decide) (by decide) (by decide)
    (by decide)
  have hC := move_particle_spec latC 1 0 (by decide) (by decide) (by decide)
    (by decide)
  refine ⟨hA0.1 (by decide), ?_, ?_, ?_⟩
  · exact (hC.2 0 1 0 (by decide) (by decide) (by decide) (by decide)
      (by rfl)).1 (Or.inr (by decide))
  · exact ((hB.2 0 0 1 (by decide) (by decide) (by decide) (by decide)
      (by rfl)).2.1 (by decide) (by decide) (by decide)).1
  · exact ((hA.2 3 2 1 (by decide) (by decide) (by decide) (by decide)
      (by rfl)).2.2 (by decide) (by decide) (by decide)).1

/-- Claim C2: after any sequence of mutation-primitive calls applied to a freshly
constructed lattice (a call that raises leaves the state as it was), every
cell holds at most one set orientation bit — the hard-core exclusion
invariant.  The random initial placement performed by the constructor is
itself a sequence of guarded `add_particle` calls and is therefore covered by
the mutation list. -/
theorem exclusion_invariant (w h : Nat) (obs snks : Int → Int → Bool)
    (ms : List Mutation) :
    excl (ms.foldl applyMut (emptyLattice w h obs snks)) := by
  have hbase : excl (emptyLattice w h obs snks) := by
    intro a b
    simp [orientationCount, emptyLattice]
  have hstep : ∀ (ms0 : List Mutation) (l : Lattice), excl l →
      excl (ms0.foldl applyMut l) := by
    intro ms0
    induction ms0 with
    | nil => intro l hl; exact hl
    | cons m rest ih =>
      intro l hl
      exact ih (applyMut l m) (excl_applyMut l m hl)
  exact hstep ms _ hbase

theorem empty_cells_eq (l : Lattice) (y x : Int) :
    empty_cells l y x = (is_empty l x y && !(is_obstacle l x y)) := by
  unfold empty_cells is_empty is_obstacle
  cases l.particles 0 y x <;> cases l.particles 1 y x <;>
    cases l.particles 2 y x <;> cases l.particles 3 y x <;>
    cases l.obstacles y x <;> rfl

/-- Claim C3: migration rates.  The orientation's summand of the migration tensor,
scaled by `v0`, is `v0` exactly when a particle of that orientation occupies
the cell and its periodic target cell holds no particle and is not an
obstacle, and 0 otherwise; when `v0 ≠ 0` the rate equals `v0` iff that
condition holds; a sink target (empty, non-obstacle) still yields `v0`; and
under the per-cell exclusion bound the combined per-cell tensor value equals
the occupying particle's per-orientation rate. -/
theorem compute_tm_spec (l : Lattice) (v0 : ℚ) (x y o tx ty : Int)
    (hw : 0 < l.width) (hh : 0 < l.height)
    (ho0 : 0 ≤ o) (ho4 : o < 4)
    (ht : get_target_position l x y o = .ok (tx, ty)) :
    (((tm_dir l o y x).toNat : ℚ) * v0
        = if l.particles o y x = true ∧ is_empty l tx ty = true
              ∧ is_obstacle l tx ty = false then v0 else 0)
    ∧ (v0 ≠ 0 →
        (((tm_dir l o y x).toNat : ℚ) * v0 = v0
          ↔ l.particles o y x = true ∧ is_empty l tx ty = true
              ∧ is_obstacle l tx ty = false))
    ∧ (l.particles o y x = true → is_empty l tx ty = true →
        is_obstacle l tx ty = false → is_sink l tx ty = true →
        ((tm_dir l o y x).toNat : ℚ) * v0 = v0)
    ∧ (orientationCount l x y ≤ 1 → l.particles o y x = true →
        compute_tm l v0 y x = ((tm_dir l o y x).toNat : ℚ) * v0) := by
  have hkey : tm_dir l o y x
      = (l.particles o y x && (is_empty l tx ty && !(is_obstacle l tx ty))) := by
    interval_cases o
    · rw [show (0 : Int) = up from rfl, get_target_position_up] at ht
      injection ht with hp
      injection hp with h1 h2
      subst h1
      subst h2
      show tm_up l y x = _
      rw [tm_up, empty_cells_eq]
      rfl
    · rw [show (1 : Int) = left from rfl, get_target_position_left] at ht
      injection ht with hp
      injection hp with h1 h2
      subst h1
      subst h2
      show tm_left l y x = _
      rw [tm_left, empty_cells_eq]
      rfl
    · rw [show (2 : Int) = down from rfl, get_target_position_down] at ht
      injection ht with hp
      injection hp with h1 h2
      subst h1
      subst h2
      show tm_down l y x = _
      rw [tm_down, empty_cells_eq]
      rfl
    · rw [show (3 : Int) = right from rfl, get_target_position_right] at ht
      injection ht with hp
      injection hp with h1 h2
      subst h1
      subst h2
      show tm_right l y x = _
      rw [tm_right, empty_cells_eq]
      rfl
  have h1 : ((tm_dir l o y x).toNat : ℚ) * v0
      = if l.particles o y x = true ∧ is_empty l tx ty = true
            ∧ is_obstacle l tx ty = false then v0 else 0 := by
    rw [hkey]
    cases hp : l.particles o y x <;> cases he : is_empty l tx ty <;>
      cases hob : is_obstacle l tx ty <;> simp
  refine ⟨h1, ?_, ?_, ?_⟩
  · intro hv
    rw [h1]
    by_cases hc : l.particles o y x = true ∧ is_empty l tx ty = true
        ∧ is_obstacle l tx ty = false
    · simp [hc]
    · rw [if_neg hc]
      constructor
      · intro h0
        exact absurd h0.symm hv
      · intro hcc
        exact absurd hcc hc
  · intro hp he hob _
    rw [h1, if_pos ⟨hp, he, hob⟩]
  · intro hcount hp
    have hbits : ∀ o' : Int, 0 ≤ o' → o' < 4 → o' ≠ o →
        l.particles o' y x = false := by
      intro o' h0 h4 hne
      cases hb : l.particles o' y x
      · rfl
      · exfalso
        unfold orientationCount at hcount
        interval_cases o <;> interval_cases o' <;> simp_all <;> omega
    interval_cases o
    · have b1 := hbits 1 (by omega) (by omega) (by omega)
      have b2 := hbits 2 (by omega) (by omega) (by omega)
      have b3 := hbits 3 (by omega) (by omega) (by omega)
      simp [compute_tm, tm_dir, tm_up, tm_down, tm_left, tm_right,
        up, down, left, right, b1, b2, b3, mul_comm]
    · have b0 := hbits 0 (by omega) (by omega) (by omega)
      have b2 := hbits 2 (by omega) (by omega) (by omega)
      have b3 := hbits 3 (by omega) (by omega) (by omega)
      simp [compute_tm, tm_dir, tm_up, tm_down, tm_left, tm_right,
        up, down, left, right, b0, b2, b3, mul_comm]
    · have b0 := hbits 0 (by omega) (by omega) (by omega)
      have b1 := hbits 1 (by omega) (by omega) (by omega)
      have b3 := hbits 3 (by omega) (by omega) (by omega)
      simp [compute_tm, tm_dir, tm_up, tm_down, tm_left, tm_right,
        up, down, left, right, b0, b1, b3, mul_comm]
    · have b0 := hbits 0 (by omega) (by omega) (by omega)
      have b1 := hbits 1 (by omega) (by omega) (by omega)
      have b2 := hbits 2 (by omega) (by omega) (by omega)
      simp [compute_tm, tm_dir, tm_up, tm_down, tm_left, tm_right,
        up, down, left, right, b0, b1, b2, mul_comm]

/-- Witness for C3: on the 3×3 lattice the right particle at (1,1) has rate
`2` toward its free target (2,1), equal to the combined tensor entry; and on
the 1×2 sink lattice the up particle's rate toward the sink target is still
`2`. -/
theorem compute_tm_spec_witness :
    ((tm_dir latA 3 1 1).toNat : ℚ) * 2 = 2
      ∧ compute_tm latA 2 1 1 = ((tm_dir latA 3 1 1).toNat : ℚ) * 2
      ∧ ((tm_dir latB 0 0 0).toNat : ℚ) * 2 = 2 := by
  have hA := compute_tm_spec latA 2 1 1 3 2 1 (by decide) (by decide)
    (by decide) (by decide) (by rfl)
  have hB := compute_tm_spec latB 2 0 0 0 0 1 (by decide) (by decide)
    (by decide) (by decide) (by rfl)
  refine ⟨?_, ?_, ?_⟩
  · rw [hA.1, if_pos ⟨by decide, by decide, by decide⟩]
  · exact hA.2.2.2 (by decide) (by decide)
  · exact hB.2.2.1 (by decide) (by decide) (by decide) (by decide)

/-- Claim C4: reorientation rates.  At an occupied cell, the entry for an
orientation the particle does not hold equals `exp(g · contrast)` where the
contrast is the periodic 4-neighbor count of that orientation minus the count
of the opposite orientation (up against down, left against right; the
periodic wrap is built into the padded convolution embedded by `neigh`); the
entry is 0 at every empty cell; and the entry of the orientation the particle
currently holds is zeroed. -/
theorem compute_tr_spec (l : Lattice) (g : ℝ) (x y o : Int)
    (ho0 : 0 ≤ o) (ho4 : o < 4) :
    (is_empty l x y = true → compute_tr l g o y x = 0)
    ∧ (l.particles o y x = true → compute_tr l g o y x = 0)
    ∧ (is_empty l x y = false → l.particles o y x = false →
        compute_tr l g o y x
          = Real.exp (g * ((neigh l o y x - neigh l (oppositeOf o) y x : ℤ) : ℝ))) := by
  refine ⟨?_, ?_, ?_⟩
  · intro hemp
    simp [compute_tr, hemp]
  · intro hbit
    simp [compute_tr, hbit]
  · intro hemp hbit
    have hlog : compute_log_tr l o y x
        = neigh l o y x - neigh l (oppositeOf o) y x := by
      interval_cases o <;> rfl
    simp [compute_tr, hemp, hbit, hlog]

/-- Witness for C4 on the 1×2 sink lattice holding one up particle at (0,0):
the down entry at the occupied cell equals `exp(1 · (0 - 2))` (the up-neighbor
count 2 arises purely from the periodic wrap of the width-1 axis), the empty
cell's entry is 0, and the particle's own up entry is zeroed. -/
theorem compute_tr_spec_witness :
    compute_tr latB 1 2 0 0 = Real.exp ((1 : ℝ) * (((-2 : ℤ) : ℝ)))
      ∧ compute_tr latB 1 1 1 0 = 0
      ∧ compute_tr latB 1 0 0 0 = 0 := by
  have hd := compute_tr_spec latB 1 0 0 2 (by decide) (by decide)
  have he := compute_tr_spec latB 1 0 1 1 (by decide) (by decide)
  have hu := compute_tr_spec latB 1 0 0 0 (by decide) (by decide)
  refine ⟨?_, he.1 (by decide), hu.2.1 (by decide)⟩
  have h := hd.2.2 (by decide) (by decide)
  rw [show (neigh latB 2 0 0 - neigh latB (oppositeOf 2) 0 0 : ℤ) = (-2 : ℤ)
    from by decide] at h
  exact h

/-- Claim C6: particle conservation.  For an in-bounds cell: a successful
`add_particle` raises the total particle count by exactly 1; a successful
`remove_particle` of a (unique-bit) particle lowers it by exactly 1; a
successful `move_particle` into a non-sink target preserves it; and a
successful `move_particle` into a sink target lowers it by exactly 1. -/
theorem particle_count_spec (l : Lattice) (x y : Int)
    (hw : 0 < l.width) (hh : 0 < l.height)
    (hx0 : 0 ≤ x) (hxw : x < (l.width : Int))
    (hy0 : 0 ≤ y) (hyh : y < (l.height : Int)) :
    (∀ (o : Int) (l' : Lattice), add_particle l x y o = .ok l' →
        num_particles l' = num_particles l + 1)
    ∧ (∀ l' : Lattice, orientationCount l x y = 1 →
        remove_particle l x y = .ok l' →
        num_particles l' + 1 = num_particles l)
    ∧ (∀ o tx ty : Int, 0 ≤ o → o < 4 → l.particles o y x = true →
        orientationCount l x y = 1 →
        get_target_position l x y o = .ok (tx, ty) →
        is_obstacle l tx ty = false → is_empty l tx ty = true →
        ((is_sink l tx ty = false →
            ∀ (b : Bool) (l' : Lattice), move_particle l x y = .ok (b, l') →
            num_particles l' = num_particles l)
          ∧ (is_sink l tx ty = true →
            ∀ (b : Bool) (l' : Lattice), move_particle l x y = .ok (b, l') →
            num_particles l' + 1 = num_particles l))) := by
  refine ⟨?_, ?_, ?_⟩
  · intro o l' hok
    obtain ⟨hemp, hobs, i, hi0, hi4, hset⟩ := add_particle_ok_inv l l' x y o hok
    subst hset
    have hbit : l.particles i y x = false := by
      obtain ⟨e0, e1, e2, e3⟩ := is_empty_bits l x y hemp
      interval_cases i <;> assumption
    exact num_particles_setParticle l i y x hi0 hi4 hy0 hyh hx0 hxw hbit
  · intro l' hcount hok
    obtain ⟨hset, -⟩ := remove_particle_ok_inv l l' x y hok
    subst hset
    have h := num_particles_clearParticles l y x hy0 hyh hx0 hxw
    omega
  · intro o tx ty ho0 ho4 hbit hcount ht hobs hemp
    have hb := get_target_position_in_bounds l x y o tx ty hw hh hx0 hxw
      hy0 hyh ho0 ho4 ht
    constructor
    · intro hsink b l' hok
      have hmv := move_particle_step l x y o tx ty hx0 hxw hy0 hyh ho0 ho4
        hbit hcount ht hobs hemp hsink
      rw [hmv] at hok
      injection hok with hp
      injection hp with hb2 hl'
      subst hl'
      have hclear := num_particles_clearParticles l y x hy0 hyh hx0 hxw
      have hbit2 : (clearParticles l y x).particles o ty tx = false := by
        simp only [clearParticles]
        by_cases hc : ty = y ∧ tx = x
        · rw [if_pos hc]
        · rw [if_neg hc]
          obtain ⟨e0, e1, e2, e3⟩ := is_empty_bits l tx ty hemp
          interval_cases o <;> assumption
      have hset := num_particles_setParticle (clearParticles l y x) o ty tx
        ho0 ho4 hb.2.2.1 hb.2.2.2 hb.1 hb.2.1 hbit2
      omega
    · intro hsink b l' hok
      have hmv := move_particle_sink l x y o tx ty hx0 hxw hy0 hyh ho0 ho4
        hbit hcount ht hobs hemp hsink
      rw [hmv] at hok
      injection hok with hp
      injection hp with hb2 hl'
      subst hl'
      have hclear := num_particles_clearParticles l y x hy0 hyh hx0 hxw
      omega

/-- Witness for C6 on the concrete lattices: an add at the empty corner goes
from 1 to 2 particles, removing the unique particle goes to 0, the successful
non-sink move keeps the count at 1, and absorption at the sink goes to 0. -/
theorem particle_count_spec_witness :
    num_particles (setParticle latA 0 0 0) = num_particles latA + 1
      ∧ num_particles (clearParticles latA 1 1) + 1 = num_particles latA
      ∧ num_particles (setParticle (clearParticles latA 1 1) 3 1 2)
          = num_particles latA
      ∧ num_particles (clearParticles latB 0 0) + 1 = num_particles latB := by
  have hA := particle_count_spec latA 0 0 (by decide) (by decide) (by decide)
    (by decide) (by decide) (by decide)
  have hA1 := particle_count_spec latA 1 1 (by decide) (by decide) (by decide)
    (by decide) (by decide) (by decide)
  have hB := particle_count_spec latB 0 0 (by decide) (by decide) (by decide)
    (by decide) (by decide) (by decide)
  refine ⟨?_, ?_, ?_, ?_⟩
  · exact hA.1 0 (setParticle latA 0 0 0) (by rfl)
  · exact hA1.2.1 (clearParticles latA 1 1) (by decide) (by rfl)
  · exact (hA1.2.2 3 2 1 (by decide) (by decide) (by decide) (by decide)
      (by rfl) (by decide) (by decide)).1 (by decide) true
      (setParticle (clearParticles latA 1 1) 3 1 2) (by rfl)
  · exact (hB.2.2 0 0 1 (by decide) (by decide) (by decide) (by decide)
      (by rfl) (by decide) (by decide)).2 (by decide) true
      (clearParticles latB 0 0) (by rfl)

/-- Claim C9 is violated by the code: the orientation-to-unit-vector table of
`compute_order_parameter` was not updated when the layer order became
[up, left, down, right], so "left" receives the vector (0,-1) and "down" the
vector (-1,0).  On the 2×1 lattice holding one up and one down particle —
opposite-orientation counts equal and supposedly canceling — the order
parameter is √(1/2) ≈ 0.707, not 0.  (The older `particle_lattice` copy pairs
the same table with the layer order [up, down, left, right], for which the
cancellation does hold, which shows the vlmc table is a slip.) -/
theorem order_parameter_bug :
    countOrientation isoLattice up = countOrientation isoLattice down
      ∧ countOrientation isoLattice left = countOrientation isoLattice right
      ∧ num_particles isoLattice = 2
      ∧ compute_order_parameter isoLattice = Real.sqrt (1 / 2)
      ∧ compute_order_parameter isoLattice ≠ 0 := by
  have hu : countOrientation isoLattice 0 = 1 := by decide
  have hl : countOrientation isoLattice 1 = 0 := by decide
  have hd : countOrientation isoLattice 2 = 1 := by decide
  have hr : countOrientation isoLattice 3 = 0 := by decide
  have hn : num_particles isoLattice = 2 := by decide
  have heq : compute_order_parameter isoLattice = Real.sqrt (1 / 2) := by
    unfold compute_order_parameter
    rw [if_neg (by decide)]
    rw [show countOrientation isoLattice right = 0 from hr,
      show countOrientation isoLattice down = 1 from hd,
      show countOrientation isoLattice up = 1 from hu,
      show countOrientation isoLattice left = 0 from hl, hn]
    norm_num
  refine ⟨by decide, by decide, hn, heq, ?_⟩
  rw [heq]
  exact (Real.sqrt_pos.mpr (by norm_num)).ne'

end LVMC
